import Mathlib

/-!
Shallow embedding of `pawky.py` (the Pawky awk-like engine) for verifying its
specification claims.  Python strings are modelled as `List Char`; Python
values that can live in a record's field list as `PyVal`; the regular
expressions actually used by the program (literal patterns and a
one-or-more character class such as the default field separator
`[ \t\n]+`) as `Regex`.  Fallible Python operations (list indexing,
`open`, `re.split` on a non-string) return `Option`.
-/

/-- Python strings, modelled as lists of characters. -/
abbrev PyStr := List Char

/-- A Python value that may appear in a record's field list: a string, an
`int`, or a `float`.  Floats are modelled as an exact decimal
`mantissa × 10^(-places)` pair, which is faithful for the plain decimal
literals the program's coercion can produce (no exponents, inf or nan). -/
inductive PyVal
  | vStr : PyStr → PyVal
  | vInt : Int → PyVal
  | vFloat : Int → Nat → PyVal
deriving DecidableEq

/-- The fragment of Python regular expressions the program actually uses:
a pattern with no metacharacters (`lit`, e.g. the default record separator
`\n`), or a one-or-more character class (`classPlus`, e.g. the default
field separator `[ \t\n]+`). -/
inductive Regex
  | lit : PyStr → Regex
  | classPlus : List Char → Regex
deriving DecidableEq

/-- The character class of the default field separator `[ \t\n]+`
(pawky.py line 35). -/
def defaultFSChars : List Char := [' ', '\t', '\n']

/-- The default field separator regex `[ \t\n]+` (pawky.py line 35). -/
def defaultFS : Regex := .classPlus defaultFSChars

/-- Whitespace stripped by Python's `int()`/`float()` conversions. -/
def isPySpace (c : Char) : Bool :=
  c = ' ' || c = '\t' || c = '\n' || c = '\r' || c = '\x0b' || c = '\x0c'

/-- Strip `isPySpace` characters from both ends of a string. -/
def stripSpaces (s : PyStr) : PyStr :=
  ((s.dropWhile isPySpace).reverse.dropWhile isPySpace).reverse

/-- Value of a nonempty all-digit string, `none` otherwise. -/
def digitsVal? (l : PyStr) : Option Nat :=
  if l ≠ [] ∧ l.all (·.isDigit) then
    some (l.foldl (fun a c => a * 10 + (c.toNat - '0'.toNat)) 0)
  else none

/-- Python `int(s)` for string arguments, on the fragment without
underscore separators or base prefixes: optional surrounding whitespace,
an optional sign, then decimal digits; `none` models `ValueError`. -/
def pyInt? (s : PyStr) : Option Int :=
  match stripSpaces s with
  | '+' :: rest => (digitsVal? rest).map Int.ofNat
  | '-' :: rest => (digitsVal? rest).map (fun n => -(n : Int))
  | t => (digitsVal? t).map Int.ofNat

/-- Python `float(s)` on the fragment of plain decimal literals
(optional whitespace and sign, digits with at most one decimal point, at
least one digit overall; no exponent, `inf` or `nan`).  The result is the
exact pair `(mantissa, decimal places)` with trailing fractional zeros
normalized away, matching the value and `str` form of the parsed float
for short decimals. -/
def pyFloat? (s : PyStr) : Option (Int × Nat) :=
  let core := fun (t : PyStr) (sign : Int) =>
    let intPart := t.takeWhile (·.isDigit)
    let rest := t.drop intPart.length
    match rest with
    | '.' :: frac =>
      if frac.all (·.isDigit) ∧ intPart ++ frac ≠ [] then
        let frac' := (frac.reverse.dropWhile (· = '0')).reverse
        match digitsVal? (intPart ++ frac') with
        | some m => some (sign * (m : Int), frac'.length)
        | none =>
          if frac' = [] then (digitsVal? intPart).map (fun m => (sign * (m : Int), 0))
          else none
      else none
    | _ => none
  match stripSpaces s with
  | '+' :: rest => core rest 1
  | '-' :: rest => core rest (-1)
  | t => core t 1

/-- Decimal rendering of the modelled float, as Python `str` renders short
decimals: a sign, the integer digits, a dot, and the fractional digits
(`".0"` when there are none). -/
def floatStr (m : Int) (d : Nat) : PyStr :=
  let sign : PyStr := if m < 0 then ['-'] else []
  let digits := (toString m.natAbs).toList
  if d = 0 then sign ++ digits ++ ['.', '0']
  else
    let padded := List.replicate (d + 1 - digits.length) '0' ++ digits
    sign ++ padded.take (padded.length - d) ++ ['.'] ++ padded.drop (padded.length - d)

/-- Python `str` of a field value (`map(str, fields)` in pawky.py line 423). -/
def pyStr : PyVal → PyStr
  | .vStr s => s
  | .vInt n => (toString n).toList
  | .vFloat m d => floatStr m d

/-- Fold a character to lower case when matching case-insensitively. -/
def foldCaseIf (ci : Bool) (c : Char) : Char :=
  if ci then c.toLower else c

/-- Does `pat` match at the start of `l` (with optional case folding)? -/
def matchesAt (ci : Bool) : PyStr → PyStr → Bool
  | [], _ => true
  | _ :: _, [] => false
  | p :: ps, c :: cs => (foldCaseIf ci p = foldCaseIf ci c) && matchesAt ci ps cs

/-- Leftmost-match scan for `re.split` with a literal pattern: the pieces
between non-overlapping left-to-right occurrences of `sep`.  The `skip`
counter consumes the remaining characters of a matched separator one at a
time, keeping the recursion structural. -/
def splitLitAux (sep : PyStr) : PyStr → Nat → PyStr → List PyStr
  | [], _, acc => [acc.reverse]
  | _ :: rest, Nat.succ skip, acc => splitLitAux sep rest skip acc
  | c :: rest, 0, acc =>
    if decide (sep ≠ []) && matchesAt false sep (c :: rest) then
      acc.reverse :: splitLitAux sep rest (sep.length - 1) []
    else
      splitLitAux sep rest 0 (c :: acc)

/-- Leftmost-match scan splitting on maximal nonempty runs of characters
from the class `cs`, as `re.split` does for a `[...]+` pattern. -/
def splitCP (cs : List Char) : PyStr → List PyStr
  | [] => [[]]
  | c :: rest =>
    if c ∈ cs then
      match rest with
      | [] => [[], []]
      | c' :: rest' =>
        if c' ∈ cs then splitCP cs (c' :: rest')
        else [] :: splitCP cs (c' :: rest')
    else
      match splitCP cs rest with
      | [] => [[c]]
      | p :: ps => (c :: p) :: ps

/-- Python `re.split(pattern, s)` on the modelled regex fragment
(pawky.py lines 227, 319, 412).  An empty literal pattern is outside the
fragment and is treated as splitting nothing. -/
def reSplit (r : Regex) (s : PyStr) : List PyStr :=
  match r with
  | .lit sep => if sep = [] then [s] else splitLitAux sep s 0 []
  | .classPlus cs => splitCP cs s

/-- Index search helper: first position at which `pat` matches. -/
def searchAux (ci : Bool) (pat : PyStr) : PyStr → Nat → Option Nat
  | [], i => if matchesAt ci pat [] then some i else none
  | c :: rest, i =>
    if matchesAt ci pat (c :: rest) then some i
    else searchAux ci pat rest (i + 1)

/-- Does the flags word passed to a `re` function enable case-insensitive
matching?  CPython tests the `re.IGNORECASE` bit, whose value is 2. -/
def flagsIgnoreCase (flags : Nat) : Bool := Nat.testBit flags 1

/-- Python `re.search(pat, s, flags)` for a literal pattern: the index of
the leftmost match, `none` when there is no match. -/
def reSearchIdx (pat s : PyStr) (flags : Nat) : Option Nat :=
  searchAux (flagsIgnoreCase flags) pat s 0

/-- Substitution scan for `re.subn` with a literal pattern: replaces
non-overlapping left-to-right matches of `pat` by `repl`, at most
`remaining` of them when `remaining` is `some`; returns the rewritten
string and the number of replacements.  The `skip` counter consumes the
matched pattern structurally. -/
def subnAux (ci : Bool) (pat repl : PyStr) : PyStr → Nat → Option Nat → PyStr × Nat
  | [], _, _ => ([], 0)
  | _ :: rest, Nat.succ skip, rem => subnAux ci pat repl rest skip rem
  | c :: rest, 0, rem =>
    if rem = some 0 then (c :: rest, 0)
    else if decide (pat ≠ []) && matchesAt ci pat (c :: rest) then
      let r := subnAux ci pat repl rest (pat.length - 1) (rem.map (· - 1))
      (repl ++ r.1, r.2 + 1)
    else
      let r := subnAux ci pat repl rest 0 rem
      (c :: r.1, r.2)

/-- Python `re.subn(pat, repl, s, count, flags)` on the literal-pattern
fragment with a replacement string free of backslash escapes; a `count`
of 0 means unlimited, as in Python. -/
def reSubn (pat repl s : PyStr) (count : Nat) (flags : Nat) : PyStr × Nat :=
  if pat = [] then (s, 0)
  else subnAux (flagsIgnoreCase flags) pat repl s 0
    (if count = 0 then none else some count)

/-- Python `sep.join(strs)` (pawky.py line 423). -/
def joinSep (sep : PyStr) : List PyStr → PyStr
  | [] => []
  | [x] => x
  | x :: xs => x ++ sep ++ joinSep sep xs

/-- A key of the rule table `Pawky.refun` used in a `(field, pattern)`
rule: the field designator passed to `Record.__getitem__`, either a
string key already resolved to its integer index (named style) or a raw
integer key (positional style). -/
inductive FieldKey
  | named : Int → FieldKey
  | pos : Int → FieldKey
deriving DecidableEq

/-- A key of the rule table `Pawky.refun` (pawky.py lines 176-189):
an `int` line number, a record regex pattern, a `(field, pattern)` pair,
or a `(start, stop, step)` slice triple. -/
inductive RuleKey
  | line : Int → RuleKey
  | pat : PyStr → RuleKey
  | fieldPat : FieldKey → PyStr → RuleKey
  | range : Int → Option Int → Int → RuleKey
deriving DecidableEq

/-- The engine state of class `Pawky` (pawky.py lines 35-64).  Fields keep
the source's names.  `NF` is `None` before the first record is built;
that pre-record state is modelled as 0 (no claim observes it).  The
lifecycle hooks `begin`/`mid`/`end` are modelled by presence flags, and a
registered handler's invocation is observed as an emitted `Event`;
`CONVFMT`, `OFMT` and `FILENAME` are unobserved by the claims and
omitted. -/
structure Pawky where
  FS : Regex := defaultFS
  OFS : PyStr := [' ']
  ORS : PyStr := ['\n']
  RS : Regex := .lit ['\n']
  IGNORECASE : Bool := false
  autoparse : Bool := false
  NF : Nat := 0
  NR : Nat := 0
  FNR : Nat := 0
  RSTART : Option Int := none
  RLENGTH : Option Int := none
  beginSet : Bool := false
  midSet : Bool := true
  endSet : Bool := false
  refun : List RuleKey := []
deriving DecidableEq

/-- A record (class `Record`, pawky.py lines 303-323): the raw text and
the field list.  The back-reference `self.awk` is passed explicitly. -/
structure Record where
  record : PyStr
  fields : List PyVal
deriving DecidableEq

/-- One field's coercion step in `Record.parse_fields` (pawky.py lines
331-339): try `int`, then `float`, else keep the value.  Python's `int`
applied to an already-coerced `int` returns it unchanged and applied to a
`float` truncates toward zero, which the first two arms reproduce. -/
def parseField : PyVal → PyVal
  | .vInt n => .vInt n
  | .vFloat m d => .vInt (Int.tdiv m (10 ^ d))
  | .vStr s =>
    match pyInt? s with
    | some n => .vInt n
    | none =>
      match pyFloat? s with
      | some (m, d) => .vFloat m d
      | none => .vStr s

/-- Helper for `parseFields`: coerce the fields at indices `< nf`. -/
def parseFieldsAux (i nf : Nat) : List PyVal → List PyVal
  | [] => []
  | v :: vs => (if i < nf then parseField v else v) :: parseFieldsAux (i + 1) nf vs

/-- `Record.parse_fields` (pawky.py lines 325-339): when coercion is
enabled, coerce the first `NF` fields in place (`doParse` stands for
`self.awk.autoparse or forced`).  Indices beyond the field list are
silently skipped, as the source's bare `except` swallows the
`IndexError`. -/
def parseFields (nf : Nat) (doParse : Bool) (fields : List PyVal) : List PyVal :=
  if doParse then parseFieldsAux 0 nf fields else fields

/-- `Record.__init__` (pawky.py lines 311-323): split the raw text by
`awk.FS`, set `awk.NF` to the number of fields, run field coercion. -/
def Record.make (awk : Pawky) (record : PyStr) : Record × Pawky :=
  let fields0 := (reSplit awk.FS record).map PyVal.vStr
  let nf := fields0.length
  ({ record := record, fields := parseFields nf awk.autoparse fields0 },
   { awk with NF := nf })

/-- Python list read `l[i]` with negative-index wrapping; `none` models
`IndexError`. -/
def pyGet? (l : List PyVal) (i : Int) : Option PyVal :=
  if 0 ≤ i then l.get? i.toNat
  else if 0 ≤ (l.length : Int) + i then l.get? ((l.length : Int) + i).toNat
  else none

/-- Python list write `l[i] = v` with negative-index wrapping; `none`
models `IndexError` (the list is unchanged in that case). -/
def pySet? (l : List PyVal) (i : Int) (v : PyVal) : Option (List PyVal) :=
  if 0 ≤ i then
    if i < (l.length : Int) then some (l.set i.toNat v) else none
  else if 0 ≤ (l.length : Int) + i then
    some (l.set ((l.length : Int) + i).toNat v)
  else none

/-- `Record.__getitem__`, string-key path (pawky.py lines 373-385), after
the key (with any `$`/`S`/`D`/`F` marker removed) has resolved to the
integer `idx`: index 0 returns the whole record, an index at most `NF`
reads `fields[idx - 1]` (propagating `IndexError` as `none` for a deeply
negative index), and a larger index returns the empty string. -/
def Record.getNamed (awk : Pawky) (r : Record) (idx : Int) : Option PyVal :=
  if idx = 0 then some (.vStr r.record)
  else if idx ≤ (awk.NF : Int) then pyGet? r.fields (idx - 1)
  else some (.vStr [])

/-- `Record.__getitem__`, int-key path (pawky.py line 387): plain
zero-based list indexing, `none` models the propagated `IndexError`. -/
def Record.getPos (r : Record) (key : Int) : Option PyVal :=
  pyGet? r.fields key

/-- `Record.__setitem__`, string-key path (pawky.py lines 403-424), after
the key has resolved to the integer `idx`.  Index 0 replaces the whole
record and re-splits (`none` models the `TypeError` `re.split` raises on
a non-string value); an index beyond `NF` first pads the fields with
empty strings and updates `NF`; then the field is written, the raw text
is rebuilt by joining the stringified fields with `OFS`, and coercion is
re-run. -/
def Record.setNamed (awk : Pawky) (r : Record) (idx : Int) (value : PyVal) :
    Option (Record × Pawky) :=
  if idx = 0 then
    match value with
    | .vStr s =>
      let fields0 := (reSplit awk.FS s).map PyVal.vStr
      let nf := fields0.length
      some ({ record := s, fields := parseFields nf awk.autoparse fields0 },
            { awk with NF := nf })
    | _ => none
  else
    let padded :=
      if (awk.NF : Int) < idx then
        (r.fields ++ List.replicate (idx - (awk.NF : Int)).toNat (PyVal.vStr []), idx.toNat)
      else (r.fields, awk.NF)
    match pySet? padded.1 (idx - 1) value with
    | none => none
    | some fields2 =>
      some ({ record := joinSep awk.OFS (fields2.map pyStr),
              fields := parseFields padded.2 awk.autoparse fields2 },
            { awk with NF := padded.2 })

/-- `Record.__setitem__`, int-key path (pawky.py lines 420-424): write
the field by zero-based index (`none` models `IndexError`), rebuild the
raw text from the stringified fields joined with `OFS`, re-run coercion;
`NF` is not changed on this path. -/
def Record.setPos (awk : Pawky) (r : Record) (key : Int) (value : PyVal) :
    Option (Record × Pawky) :=
  match pySet? r.fields key value with
  | none => none
  | some fields2 =>
    some ({ record := joinSep awk.OFS (fields2.map pyStr),
            fields := parseFields awk.NF awk.autoparse fields2 },
          awk)

/-- `Record.__str__` (pawky.py lines 341-347): the raw record text. -/
def Record.str (r : Record) : PyStr := r.record

/-- Python's `bool` passed where an `int` is expected (`flags=self.IGNORECASE`
in pawky.py lines 77, 96, 136): `True` coerces to 1, `False` to 0. -/
def pyBoolToNat (b : Bool) : Nat := if b then 1 else 0

/-- `Pawky.gsub` (pawky.py lines 66-77) on the literal-pattern fragment
with an explicit target `t`: `re.subn(r, s, t, flags=self.IGNORECASE)`.
Note the flags argument is the raw boolean, not `re.IGNORECASE`. -/
def Pawky.gsub (e : Pawky) (r s t : PyStr) : PyStr × Nat :=
  reSubn r s t 0 (pyBoolToNat e.IGNORECASE)

/-- `Pawky.sub` (pawky.py lines 128-136): as `gsub` but with `count=1`.
The flags argument is again the raw boolean `self.IGNORECASE`. -/
def Pawky.sub (e : Pawky) (r s t : PyStr) : PyStr × Nat :=
  reSubn r s t 1 (pyBoolToNat e.IGNORECASE)

/-- `Pawky.match` (pawky.py lines 91-104; `match` is a Lean keyword, hence
`matchFn`): `re.search(r, s, flags=self.IGNORECASE)`; sets `RSTART` to the
1-based match position (0 if none) and `RLENGTH` to the match length
(-1 if none), returning `RSTART`. -/
def Pawky.matchFn (e : Pawky) (s r : PyStr) : Pawky × Int :=
  match reSearchIdx r s (pyBoolToNat e.IGNORECASE) with
  | none => ({ e with RSTART := some 0, RLENGTH := some (-1) }, 0)
  | some i =>
    ({ e with RSTART := some ((i : Int) + 1), RLENGTH := some (r.length : Int) },
     (i : Int) + 1)

/-- The output of Python `print(*args, sep, end)`: the argument strings
joined by `sep`, terminated by `end`. -/
def pyPrint (sep endStr : PyStr) (args : List PyStr) : PyStr :=
  joinSep sep args ++ endStr

/-- The default `mid` hook (pawky.py line 58):
`lambda *args: print(*args, sep=self.OFS, end=self.ORS)`, modelled as the
text it writes for the given arguments. -/
def defaultMid (e : Pawky) (args : List PyStr) : PyStr :=
  pyPrint e.OFS e.ORS args

/-- The text the default `mid` hook writes when the engine invokes it on a
record (pawky.py line 232): it is passed the single argument
`self.__record`, which `print` renders via `Record.__str__`. -/
def defaultMidOnRecord (e : Pawky) (r : Record) : PyStr :=
  defaultMid e [Record.str r]

/-- The flags value rule matching passes to `re.search`
(pawky.py lines 238, 242): `re.IGNORECASE if self.IGNORECASE else 0`,
where `re.IGNORECASE` is 2. -/
def ruleFlags (e : Pawky) : Nat := if e.IGNORECASE then 2 else 0

/-- The rule-firing test of the dispatch loop (pawky.py lines 233-247)
for one key of `refun` against the current record.  `r` is the freshly
built `Record` and `rec` the raw record string; the counters are read
from the engine state.  For a `(field, pattern)` key whose field access
would raise `IndexError` (outside the claims' fragment) the rule is
treated as not matching. -/
def ruleMatches (e : Pawky) (r : Record) (rec : PyStr) (k : RuleKey) : Bool :=
  match k with
  | .line n =>
    (decide (0 < n) && decide (n = (e.NR : Int))) ||
    (decide (n < 0) && decide (-n = (e.FNR : Int)))
  | .pat p => (reSearchIdx p rec (ruleFlags e)).isSome
  | .fieldPat fk p =>
    let fv := match fk with
      | .named i => Record.getNamed e r i
      | .pos i => Record.getPos r i
    match fv with
    | some v => (reSearchIdx p (pyStr v) (ruleFlags e)).isSome
    | none => false
  | .range a b c =>
    let i : Int := if 0 < c then (e.NR : Int) else (e.FNR : Int)
    (match b with | none => true | some s => decide (i < s)) &&
    decide (a ≤ i) && decide ((i - a) % c = 0)

/-- An observable action of a run: the `begin` hook firing, the `mid`
hook firing on a record (with the `NR` and `FNR` values at that moment),
a registered rule's handler firing, or the `end` hook firing. -/
inductive Event
  | beginEv : Event
  | midEv : Nat → Nat → PyStr → Event
  | ruleEv : RuleKey → Nat → Nat → PyStr → Event
  | endEv : Event
deriving DecidableEq

/-- The body of the per-record loop in `Pawky.__call__` (pawky.py lines
227-247): increment `FNR` and `NR`, build a `Record` (setting `NF`),
call the `mid` hook if set, then test every key of `refun` in order and
fire the matching handlers.  Handler invocations are observed as events;
handlers' own side effects are not modelled. -/
def processRecord (e : Pawky) (rec : PyStr) : Pawky × List Event :=
  let e1 := { e with FNR := e.FNR + 1, NR := e.NR + 1 }
  let re := Record.make e1 rec
  let e2 := re.2
  (e2,
   (if e2.midSet then [Event.midEv e2.NR e2.FNR rec] else []) ++
   e2.refun.filterMap (fun k =>
     if ruleMatches e2 re.1 rec k then some (Event.ruleEv k e2.NR e2.FNR rec)
     else none))

/-- The inner loop of `Pawky.__call__` over the records of one file. -/
def runRecords (e : Pawky) : List PyStr → Pawky × List Event
  | [] => (e, [])
  | rec :: rest =>
    let pr := processRecord e rec
    let rr := runRecords pr.1 rest
    (rr.1, pr.2 ++ rr.2)

/-- The per-file body of `Pawky.__call__` (pawky.py lines 224-247):
reset `NR` to 0 (line 226), split the file content by `RS`, process each
record. -/
def runFile (e : Pawky) (content : PyStr) : Pawky × List Event :=
  runRecords { e with NR := 0 } (reSplit e.RS content)

/-- The file loop of `Pawky.__call__` (pawky.py lines 223-247).  A file
is `some content` when it can be opened and `none` when `open` raises
`IOError`; in the latter case the exception propagates at once
(result `none`), with the events emitted so far. -/
def runFiles (e : Pawky) : List (Option PyStr) → Option Pawky × List Event
  | [] => (some e, [])
  | none :: _ => (none, [])
  | some content :: rest =>
    let fr := runFile e content
    let rr := runFiles fr.1 rest
    (rr.1, fr.2 ++ rr.2)

/-- `Pawky.__call__` (pawky.py lines 202-249): set `FS`, call `begin` if
set, reset `FNR` to 0 once (line 222), run the file loop, and call `end`
if set — unless an `IOError` aborted the run, in which case the result is
`none` and `end` does not fire. -/
def pawkyCall (e : Pawky) (fs : Regex) (files : List (Option PyStr)) :
    Option Pawky × List Event :=
  let e0 := { e with FS := fs }
  let bev := if e0.beginSet then [Event.beginEv] else []
  let rr := runFiles { e0 with FNR := 0 } files
  match rr.1 with
  | some e2 => (some e2, bev ++ rr.2 ++ (if e2.endSet then [Event.endEv] else []))
  | none => (none, bev ++ rr.2)

/-! ### Helper lemmas -/

theorem parseFieldsAux_length (nf : Nat) :
    ∀ (l : List PyVal) (i : Nat), (parseFieldsAux i nf l).length = l.length := by
  intro l
  induction l with
  | nil => intro i; rfl
  | cons v vs ih => intro i; simp [parseFieldsAux, ih]

theorem parseFields_length (nf : Nat) (b : Bool) (l : List PyVal) :
    (parseFields nf b l).length = l.length := by
  unfold parseFields
  split
  · exact parseFieldsAux_length nf l 0
  · rfl

theorem parseFields_false (nf : Nat) (l : List PyVal) :
    parseFields nf false l = l := by
  rfl

theorem pySet?_length {l l' : List PyVal} {i : Int} {v : PyVal}
    (h : pySet? l i v = some l') : l'.length = l.length := by
  unfold pySet? at h
  split at h
  · split at h
    · injection h with h; subst h; exact List.length_set ..
    · cases h
  · split at h
    · injection h with h; subst h; exact List.length_set ..
    · cases h

theorem pySet?_eq_some (l : List PyVal) (i : Int) (v : PyVal)
    (h0 : 0 ≤ i) (h1 : i < (l.length : Int)) :
    pySet? l i v = some (l.set i.toNat v) := by
  unfold pySet?
  rw [if_pos h0, if_pos h1]

theorem splitLitAux_ne_nil (sep : PyStr) :
    ∀ (l : PyStr) (skip : Nat) (acc : PyStr), splitLitAux sep l skip acc ≠ [] := by
  intro l
  induction l with
  | nil => intro skip acc; simp [splitLitAux]
  | cons c rest ih =>
    intro skip acc
    match skip with
    | Nat.succ k => simpa only [splitLitAux] using ih k acc
    | 0 =>
      simp only [splitLitAux]
      split
      · simp
      · exact ih 0 (c :: acc)

theorem splitCP_ne_nil (cs : List Char) : ∀ l : PyStr, splitCP cs l ≠ [] := by
  intro l
  induction l with
  | nil => simp [splitCP]
  | cons c rest ih =>
    rw [splitCP.eq_def]
    split
    · simp
    next c2 rest2 heq =>
      injection heq with h1 h2
      subst h1
      subst h2
      split
      · cases rest with
        | nil => simp
        | cons c' rest' =>
          show ¬(if c' ∈ cs then splitCP cs (c' :: rest')
                 else [] :: splitCP cs (c' :: rest')) = []
          split
          · exact ih
          · simp
      · cases h : splitCP cs rest with
        | nil => exact absurd h ih
        | cons p ps => simp [h]

theorem reSplit_ne_nil (r : Regex) (s : PyStr) : reSplit r s ≠ [] := by
  cases r with
  | lit sep =>
    simp only [reSplit]
    split
    · simp
    · exact splitLitAux_ne_nil sep s 0 []
  | classPlus cs => exact splitCP_ne_nil cs s

theorem reSplit_nil (r : Regex) : reSplit r [] = [[]] := by
  cases r with
  | lit sep =>
    simp only [reSplit]
    split <;> simp [splitLitAux]
  | classPlus cs => rfl

theorem record_make_nil_fields (st : Pawky) :
    (Record.make st []).1.fields = [PyVal.vStr []] := by
  have h2 : parseField (PyVal.vStr []) = PyVal.vStr [] := by decide
  cases hap : st.autoparse <;>
    simp [Record.make, reSplit_nil, parseFields, parseFieldsAux, hap, h2]

theorem splitLitAux_single_append (c : Char) (d : PyStr) :
    ∀ acc, splitLitAux [c] (d ++ [c]) 0 acc = splitLitAux [c] d 0 acc ++ [[]] := by
  induction d with
  | nil =>
    intro acc
    simp [splitLitAux, matchesAt, foldCaseIf]
  | cons x d' ih =>
    intro acc
    by_cases hx : c = x
    · subst hx
      simp only [List.cons_append, splitLitAux, matchesAt, foldCaseIf]
      simp [ih]
    · simp only [List.cons_append, splitLitAux, matchesAt, foldCaseIf]
      simp [hx, Ne.symm hx, ih]

theorem reSplit_single_append (c : Char) (d : PyStr) :
    reSplit (Regex.lit [c]) (d ++ [c]) = reSplit (Regex.lit [c]) d ++ [[]] := by
  simp [reSplit, splitLitAux_single_append]

theorem runRecords_append (e : Pawky) (l1 l2 : List PyStr) :
    runRecords e (l1 ++ l2) =
      ((runRecords (runRecords e l1).1 l2).1,
       (runRecords e l1).2 ++ (runRecords (runRecords e l1).1 l2).2) := by
  induction l1 generalizing e with
  | nil => simp [runRecords]
  | cons r rest ih => simp [runRecords, ih]

theorem processRecord_NR (e : Pawky) (rec : PyStr) :
    (processRecord e rec).1.NR = e.NR + 1 := rfl

theorem processRecord_FNR (e : Pawky) (rec : PyStr) :
    (processRecord e rec).1.FNR = e.FNR + 1 := rfl

theorem endEv_notin_processRecord (e : Pawky) (rec : PyStr) :
    Event.endEv ∉ (processRecord e rec).2 := by
  simp only [processRecord, List.mem_append, List.mem_filterMap]
  rintro (h | ⟨k, hk, h⟩)
  · split at h <;> simp_all
  · split at h <;> simp_all

theorem endEv_notin_runRecords (l : List PyStr) :
    ∀ e : Pawky, Event.endEv ∉ (runRecords e l).2 := by
  induction l with
  | nil => intro e; simp [runRecords]
  | cons r rest ih =>
    intro e
    simp only [runRecords, List.mem_append]
    rintro (h | h)
    · exact endEv_notin_processRecord e r h
    · exact ih _ h

theorem endEv_notin_runFiles (fl : List (Option PyStr)) :
    ∀ e : Pawky, Event.endEv ∉ (runFiles e fl).2 := by
  induction fl with
  | nil => intro e; simp [runFiles]
  | cons f rest ih =>
    intro e
    cases f with
    | none => simp [runFiles]
    | some content =>
      simp only [runFiles, List.mem_append]
      rintro (h | h)
      · exact endEv_notin_runRecords _ _ h
      · exact ih _ h

theorem runFiles_abort (rest : List (Option PyStr)) (good : List PyStr) :
    ∀ e : Pawky, runFiles e (good.map some ++ none :: rest) =
      (none, (runFiles e (good.map some)).2) := by
  induction good with
  | nil => intro e; simp [runFiles]
  | cons g good' ih =>
    intro e
    simp [runFiles, ih]

/-! ### Claim theorems -/

/-- C1: the claim states that `NR` (the global record counter) is reset
to 0 once per run before any file, and `FNR` (the file-local counter) at
the start of each file.  The code does the opposite (pawky.py lines 222
and 226: `FNR = 0` once before the file loop, `NR = 0` inside each
file's block), contradicting the class's own docstrings for `NR`/`FNR`.
Evaluating the run on two files with 2 and 1 records: the final state has
`NR = 1` (reset at the second file) and `FNR = 3` (never reset after run
start), where the claim requires `NR = 3` and `FNR = 1`. -/
theorem C1_counter_resets_swapped :
    (pawkyCall { midSet := false } defaultFS
        [some "a\nb".toList, some "c".toList]).1.map Pawky.NR = some 1 ∧
    (pawkyCall { midSet := false } defaultFS
        [some "a\nb".toList, some "c".toList]).1.map Pawky.FNR = some 3 := by
  decide

/-- C2: with the rule key 3 registered and a run over files of 2 and 3
records, the claim says the rule fires exactly once on the 3rd record
overall ("c", the 1st record of file 2).  Because the code resets `NR`
per file (pawky.py line 226), the rule in fact fires exactly once on the
5th record overall ("e", the 3rd record of file 2): the full event trace
is a single firing at `NR = 3` (per-file count) with the run-wide count
`FNR = 5`, on record "e".  The second conjunct lists the five records in
run order, placing "e" 5th and "c" 3rd. -/
theorem C2_at_global_line_fires_late :
    (pawkyCall { midSet := false, refun := [RuleKey.line 3] } defaultFS
        [some "a\nb".toList, some "c\nd\ne".toList]).2
      = [Event.ruleEv (RuleKey.line 3) 3 5 ['e']] ∧
    reSplit (Regex.lit ['\n']) "a\nb".toList ++ reSplit (Regex.lit ['\n']) "c\nd\ne".toList
      = [['a'], ['b'], ['c'], ['d'], ['e']] := by
  decide

/-- C4: the claim says `gsub`, `sub` and `match` honor the
case-sensitivity flag exactly as rule matching does.  The code passes the
raw boolean `self.IGNORECASE` as the `re` flags argument (pawky.py lines
77, 96, 136), which coerces to 1 (`re.TEMPLATE`), not `re.IGNORECASE`
(2, as rule matching passes on lines 238, 242).  Evaluated with the flag
set: `gsub`/`sub` leave "A" unchanged with 0 replacements for pattern
"a", and `match` returns 0, while a record-pattern rule "a" does match
the record "A"; the last conjunct confirms `gsub` does substitute when
the case agrees exactly. -/
theorem C4_string_utils_ignore_case_flag :
    Pawky.gsub { IGNORECASE := true } ['a'] ['x'] ['A'] = (['A'], 0) ∧
    Pawky.sub { IGNORECASE := true } ['a'] ['x'] ['A'] = (['A'], 0) ∧
    (Pawky.matchFn { IGNORECASE := true } ['A'] ['a']).2 = 0 ∧
    ruleMatches { IGNORECASE := true }
      (Record.make { IGNORECASE := true } []).1 ['A'] (RuleKey.pat ['a']) = true ∧
    Pawky.gsub { IGNORECASE := true } ['a'] ['x'] ['a'] = (['x'], 1) := by
  decide

/-- C3 counterexample: for the record built from "a  b" (two spaces)
under the default separators, the default mid hook outputs the raw text
"a  b\n", while the OFS-join of the fields ends "a b\n" — so the default
per-record hook does not output the fields joined by OFS for every
record and OFS/FS setting. -/
theorem C3_counterexample :
    defaultMidOnRecord (Record.make {} "a  b".toList).2 (Record.make {} "a  b".toList).1
      = "a  b\n".toList ∧
    joinSep (Record.make {} "a  b".toList).2.OFS
        ((Record.make {} "a  b".toList).1.fields.map pyStr) ++
      (Record.make {} "a  b".toList).2.ORS = "a b\n".toList ∧
    defaultMidOnRecord (Record.make {} "a  b".toList).2 (Record.make {} "a  b".toList).1
      ≠ joinSep (Record.make {} "a  b".toList).2.OFS
          ((Record.make {} "a  b".toList).1.fields.map pyStr) ++
        (Record.make {} "a  b".toList).2.ORS := by
  decide

/-- C3 (amended): the default per-record hook, invoked on a Record,
outputs the record's raw text (its `str` form), terminated by the output
record separator; the output field separator would only separate multiple
print arguments, so the fields are not re-joined. -/
theorem C3_default_hook_prints_raw_text (e : Pawky) (r : Record) :
    defaultMidOnRecord e r = r.record ++ e.ORS := rfl

/-- Witness for C3: the amended theorem evaluated on a concrete record. -/
theorem C3_witness :
    defaultMidOnRecord ({} : Pawky)
        { record := "ab".toList, fields := [PyVal.vStr "ab".toList] }
      = "ab".toList ++ ({} : Pawky).ORS :=
  C3_default_hook_prints_raw_text {}
    { record := "ab".toList, fields := [PyVal.vStr "ab".toList] }

/-- C10: constructing a Record from any input string always yields at
least one field — the field list is never empty and NF is at least 1 —
and the empty line yields exactly one empty-string field. -/
theorem C10_fields_never_empty :
    (∀ (e : Pawky) (s : PyStr), (Record.make e s).1.fields ≠ []) ∧
    (∀ (e : Pawky) (s : PyStr), 1 ≤ (Record.make e s).2.NF) ∧
    (∀ e : Pawky, (Record.make e []).1.fields = [PyVal.vStr []]) := by
  refine ⟨?_, ?_, ?_⟩
  · intro e s h
    apply reSplit_ne_nil e.FS s
    have hlen : (Record.make e s).1.fields.length
        = ((reSplit e.FS s).map PyVal.vStr).length :=
      parseFields_length _ _ _
    rw [h] at hlen
    simp only [List.length_nil, List.length_map] at hlen
    exact List.length_eq_zero.mp hlen.symm
  · intro e s
    show 1 ≤ ((reSplit e.FS s).map PyVal.vStr).length
    simp only [List.length_map]
    exact Nat.one_le_iff_ne_zero.mpr
      (fun h => reSplit_ne_nil e.FS s (List.length_eq_zero.mp h))
  · exact record_make_nil_fields

/-- Witness for C10: evaluated on a concrete engine and line. -/
theorem C10_witness :
    (Record.make {} ['a']).1.fields ≠ [] ∧ 1 ≤ (Record.make {} ['a']).2.NF :=
  ⟨C10_fields_never_empty.1 {} ['a'], C10_fields_never_empty.2.1 {} ['a']⟩

/-- C7: for a record satisfying the NF invariant, reading a field index
beyond NF via name-style access returns the empty string without
raising, while reading the same index via pure positional (zero-based)
access raises IndexError (modelled as `none`). -/
theorem C7_out_of_range_read (e : Pawky) (r : Record) (idx : Nat)
    (hlen : r.fields.length = e.NF) (h : e.NF < idx) :
    Record.getNamed e r (idx : Int) = some (PyVal.vStr []) ∧
    Record.getPos r (idx : Int) = none := by
  constructor
  · unfold Record.getNamed
    rw [if_neg (by omega), if_neg (by omega)]
  · unfold Record.getPos pyGet?
    rw [if_pos (by omega)]
    apply List.get?_eq_none.mpr
    omega

/-- Witness for C7: field 10 of a three-field record. -/
theorem C7_witness :
    Record.getNamed (Record.make {} "a b c".toList).2 (Record.make {} "a b c".toList).1
        ((10 : Nat) : Int) = some (PyVal.vStr []) ∧
    Record.getPos (Record.make {} "a b c".toList).1 ((10 : Nat) : Int) = none :=
  C7_out_of_range_read _ _ 10 (by decide) (by decide)

/-- Statement form for C5: the field write succeeded, and reading the
whole record (field 0) afterwards yields exactly the stringified fields
joined with the given output field separator. -/
def writeThenReadOk (ofs : PyStr) (res : Option (Record × Pawky)) : Bool :=
  match res with
  | none => false
  | some p =>
    Record.getNamed p.2 p.1 0 == some (PyVal.vStr (joinSep ofs (p.1.fields.map pyStr)))

/-- C5 counterexample: with autoparse enabled, writing the string "07" to
field 1 of the record built from "a b" re-coerces the field to the
integer 7, so reading the whole record gives "07 b" while the
stringified fields join to "7 b" — the claimed equality fails for this
record and write. -/
theorem C5_counterexample :
    writeThenReadOk (Record.make { autoparse := true } "a b".toList).2.OFS
      (Record.setNamed (Record.make { autoparse := true } "a b".toList).2
        (Record.make { autoparse := true } "a b".toList).1 1 (PyVal.vStr "07".toList))
      = false ∧
    (Record.setNamed (Record.make { autoparse := true } "a b".toList).2
        (Record.make { autoparse := true } "a b".toList).1 1 (PyVal.vStr "07".toList)).map
      (fun p => Record.getNamed p.2 p.1 0) = some (some (PyVal.vStr "07 b".toList)) ∧
    (Record.setNamed (Record.make { autoparse := true } "a b".toList).2
        (Record.make { autoparse := true } "a b".toList).1 1 (PyVal.vStr "07".toList)).map
      (fun p => joinSep p.2.OFS (p.1.fields.map pyStr)) = some "7 b".toList := by
  decide

/-- C5 (amended): for an engine with field coercion disabled (autoparse
off) and a record satisfying the NF invariant, writing any value to any
field k with 1 ≤ k ≤ NF succeeds, and reading the whole record afterwards
yields exactly the stringified fields joined with OFS.  (With autoparse
on, the post-write re-coercion can change a field's string form, as the
counterexample shows.) -/
theorem C5_write_then_read_join (e : Pawky) (r : Record) (k : Nat) (v : PyVal)
    (hap : e.autoparse = false) (hlen : r.fields.length = e.NF)
    (hk1 : 1 ≤ k) (hk2 : k ≤ e.NF) :
    writeThenReadOk e.OFS (Record.setNamed e r (k : Int) v) = true := by
  have h0 : ¬ ((k : Int) = 0) := by omega
  have hpad : ¬ ((e.NF : Int) < (k : Int)) := by omega
  have hset : pySet? r.fields ((k : Int) - 1) v
      = some (r.fields.set ((k : Int) - 1).toNat v) :=
    pySet?_eq_some _ _ _ (by omega) (by omega)
  simp only [Record.setNamed, if_neg h0, if_neg hpad, hset, hap, parseFields_false,
    writeThenReadOk, Record.getNamed, if_pos, beq_iff_eq]

/-- Witness for C5: writing "z" to field 1 of the record built from
"a b" with the default (autoparse-off) engine. -/
theorem C5_witness :
    writeThenReadOk (Record.make {} "a b".toList).2.OFS
      (Record.setNamed (Record.make {} "a b".toList).2 (Record.make {} "a b".toList).1
        ((1 : Nat) : Int) (PyVal.vStr ['z'])) = true :=
  C5_write_then_read_join _ _ 1 _ (by decide) (by decide) (by decide) (by decide)

/-- Statement form for C6: if the write succeeded, the resulting record's
field-list length equals the engine's NF (a failed write raises without
touching the state, so the invariant is vacuously preserved). -/
def nfInvariantOk (res : Option (Record × Pawky)) : Bool :=
  match res with
  | none => true
  | some p => p.1.fields.length == p.2.NF

/-- C6: `len(fields) == NF` holds immediately after Record construction
and is preserved by every write — named-style writes (including
whole-record rewrites at index 0 and past-NF writes that pad with empty
strings) and positional writes. -/
theorem C6_nf_invariant :
    (∀ (e : Pawky) (s : PyStr),
      (Record.make e s).1.fields.length = (Record.make e s).2.NF) ∧
    (∀ (e : Pawky) (r : Record) (idx : Int) (v : PyVal),
      r.fields.length = e.NF → nfInvariantOk (Record.setNamed e r idx v) = true) ∧
    (∀ (e : Pawky) (r : Record) (key : Int) (v : PyVal),
      r.fields.length = e.NF → nfInvariantOk (Record.setPos e r key v) = true) := by
  refine ⟨?_, ?_, ?_⟩
  · intro e s
    exact parseFields_length _ _ _
  · intro e r idx v hlen
    by_cases h0 : idx = 0
    · subst h0
      cases v with
      | vStr s => simp [Record.setNamed, nfInvariantOk, parseFields_length]
      | vInt n => simp [Record.setNamed, nfInvariantOk]
      | vFloat m d => simp [Record.setNamed, nfInvariantOk]
    · by_cases hlt : (e.NF : Int) < idx
      · simp only [Record.setNamed, if_neg h0, if_pos hlt, nfInvariantOk]
        cases hset : pySet? (r.fields ++ List.replicate (idx - (e.NF : Int)).toNat
            (PyVal.vStr [])) (idx - 1) v with
        | none => rfl
        | some fields2 =>
          have hl2 := pySet?_length hset
          simp only [List.length_append, List.length_replicate, hlen] at hl2
          simp only [parseFields_length, beq_iff_eq]
          omega
      · cases hset : pySet? r.fields (idx - 1) v with
        | none => simp [Record.setNamed, h0, hlt, hset, nfInvariantOk]
        | some fields2 =>
          have hl2 := pySet?_length hset
          simp only [Record.setNamed, if_neg h0, if_neg hlt, hset, nfInvariantOk,
            parseFields_length, beq_iff_eq]
          omega
  · intro e r key v hlen
    cases hset : pySet? r.fields key v with
    | none => simp [Record.setPos, hset, nfInvariantOk]
    | some fields2 =>
      have hl2 := pySet?_length hset
      simp only [Record.setPos, hset, nfInvariantOk, parseFields_length, beq_iff_eq]
      omega

/-- Witness for C6: construction, a padding named write past NF, and a
positional write, on the record built from "a b". -/
theorem C6_witness :
    (Record.make {} "a b".toList).1.fields.length = (Record.make {} "a b".toList).2.NF ∧
    nfInvariantOk (Record.setNamed (Record.make {} "a b".toList).2
      (Record.make {} "a b".toList).1 5 (PyVal.vStr ['z'])) = true ∧
    nfInvariantOk (Record.setPos (Record.make {} "a b".toList).2
      (Record.make {} "a b".toList).1 0 (PyVal.vStr ['z'])) = true :=
  ⟨C6_nf_invariant.1 {} "a b".toList,
   C6_nf_invariant.2.1 _ _ 5 _ (by decide),
   C6_nf_invariant.2.2 _ _ 0 _ (by decide)⟩

/-- C8: when a file of the input list cannot be opened, the run aborts
there with the I/O error propagated (result `none`): the files before it
are processed normally, no record of the failing file or of any later
file is processed (the trace is exactly the begin hook plus the traces of
the earlier files), and the `end` hook never fires. -/
theorem C8_unopenable_file_aborts (e : Pawky) (fs : Regex) (good : List PyStr)
    (rest : List (Option PyStr)) :
    (pawkyCall e fs (good.map some ++ none :: rest)).1 = none ∧
    (pawkyCall e fs (good.map some ++ none :: rest)).2 =
      (if e.beginSet then [Event.beginEv] else []) ++
      (runFiles { e with FS := fs, FNR := 0 } (good.map some)).2 ∧
    Event.endEv ∉ (pawkyCall e fs (good.map some ++ none :: rest)).2 := by
  have habort := runFiles_abort rest good { e with FS := fs, FNR := 0 }
  refine ⟨?_, ?_, ?_⟩
  · simp [pawkyCall, habort]
  · simp [pawkyCall, habort]
  · simp only [pawkyCall, habort, List.mem_append]
    rintro (h | h)
    · revert h
      split <;> simp
    · exact endEv_notin_runFiles _ _ h

/-- Witness for C8: a run whose second file cannot be opened. -/
theorem C8_witness :
    (pawkyCall {} defaultFS (["a".toList].map some ++ none :: [])).1 = none ∧
    (pawkyCall {} defaultFS (["a".toList].map some ++ none :: [])).2 =
      (if ({} : Pawky).beginSet then [Event.beginEv] else []) ++
      (runFiles { ({} : Pawky) with FS := defaultFS, FNR := 0 } (["a".toList].map some)).2 ∧
    Event.endEv ∉ (pawkyCall {} defaultFS (["a".toList].map some ++ none :: [])).2 :=
  C8_unopenable_file_aborts {} defaultFS ["a".toList] []

/-- The engine state and event trace after the records of `d` within one
file run of engine `e` (the prefix of the per-file loop of
`Pawky.__call__`, starting from the per-file `NR = 0` reset). -/
def midFileRun (e : Pawky) (d : PyStr) : Pawky × List Event :=
  runRecords { e with NR := 0 } (reSplit e.RS d)

/-- C9 counterexample: the claim quantifies over every file content
ending with the record separator, but for the two-character separator
"aa" and content "aaa" (which ends with "aa") the leftmost-match scan
splits into ["", "a"] — the trailing record is "a", not the empty
record the claim promises.  The run's trace processes exactly those two
records. -/
theorem C9_counterexample :
    ("aaa".toList : PyStr) = ['a'] ++ ['a', 'a'] ∧
    reSplit (Regex.lit ['a', 'a']) "aaa".toList = [[], ['a']] ∧
    (reSplit (Regex.lit ['a', 'a']) "aaa".toList).getLast? ≠ some [] ∧
    (runFile { RS := Regex.lit ['a', 'a'] } "aaa".toList).2
      = [Event.midEv 1 1 [], Event.midEv 2 2 ['a']] := by
  decide

/-- C9 (amended): for a single-character record separator (such as the
default "\n"), a file content ending with the separator splits into the
earlier records followed by one trailing empty record, and the run
processes that empty record exactly like any other: the per-file run is
the run over the earlier records followed by one ordinary
`processRecord` step on `""`, which increments both counters, builds a
Record with the single empty field (under the default field separator),
invokes the `mid` hook if set, and evaluates every registered rule. -/
theorem C9_trailing_empty_record (e : Pawky) (c : Char) (d : PyStr)
    (hRS : e.RS = Regex.lit [c]) (hFS : e.FS = defaultFS) :
    reSplit e.RS (d ++ [c]) = reSplit e.RS d ++ [[]] ∧
    runFile e (d ++ [c]) =
      ((processRecord (midFileRun e d).1 []).1,
       (midFileRun e d).2 ++ (processRecord (midFileRun e d).1 []).2) ∧
    (processRecord (midFileRun e d).1 []).1.NR = (midFileRun e d).1.NR + 1 ∧
    (processRecord (midFileRun e d).1 []).1.FNR = (midFileRun e d).1.FNR + 1 ∧
    (Record.make { (midFileRun e d).1 with
        FNR := (midFileRun e d).1.FNR + 1, NR := (midFileRun e d).1.NR + 1 } []).1.fields
      = [PyVal.vStr []] ∧
    (processRecord (midFileRun e d).1 []).2 =
      (if (midFileRun e d).1.midSet then
        [Event.midEv ((midFileRun e d).1.NR + 1) ((midFileRun e d).1.FNR + 1) []]
       else []) ++
      (midFileRun e d).1.refun.filterMap (fun k =>
        if ruleMatches (processRecord (midFileRun e d).1 []).1
            (Record.make { (midFileRun e d).1 with
              FNR := (midFileRun e d).1.FNR + 1,
              NR := (midFileRun e d).1.NR + 1 } []).1 [] k
        then some (Event.ruleEv k ((midFileRun e d).1.NR + 1)
                    ((midFileRun e d).1.FNR + 1) [])
        else none) := by
  have hsplit : reSplit e.RS (d ++ [c]) = reSplit e.RS d ++ [[]] := by
    rw [hRS]; exact reSplit_single_append c d
  refine ⟨hsplit, ?_, processRecord_NR _ _, processRecord_FNR _ _,
    record_make_nil_fields _, rfl⟩
  show runRecords { e with NR := 0 } (reSplit e.RS (d ++ [c])) = _
  rw [hsplit, runRecords_append]
  simp [runRecords, midFileRun]

/-- Concrete engine for the C9 witness: default single-character record
separator and one registered line rule. -/
def e9 : Pawky := { RS := Regex.lit ['\n'], refun := [RuleKey.line 1] }

/-- Witness for C9: the amended theorem evaluated at `e9`, separator
'\n' and content "a\n". -/
theorem C9_witness :
    reSplit e9.RS ("a".toList ++ ['\n']) = reSplit e9.RS "a".toList ++ [[]] ∧
    runFile e9 ("a".toList ++ ['\n']) =
      ((processRecord (midFileRun e9 "a".toList).1 []).1,
       (midFileRun e9 "a".toList).2 ++ (processRecord (midFileRun e9 "a".toList).1 []).2) ∧
    (processRecord (midFileRun e9 "a".toList).1 []).1.NR
      = (midFileRun e9 "a".toList).1.NR + 1 ∧
    (processRecord (midFileRun e9 "a".toList).1 []).1.FNR
      = (midFileRun e9 "a".toList).1.FNR + 1 ∧
    (Record.make { (midFileRun e9 "a".toList).1 with
        FNR := (midFileRun e9 "a".toList).1.FNR + 1,
        NR := (midFileRun e9 "a".toList).1.NR + 1 } []).1.fields
      = [PyVal.vStr []] ∧
    (processRecord (midFileRun e9 "a".toList).1 []).2 =
      (if (midFileRun e9 "a".toList).1.midSet then
        [Event.midEv ((midFileRun e9 "a".toList).1.NR + 1)
          ((midFileRun e9 "a".toList).1.FNR + 1) []]
       else []) ++
      (midFileRun e9 "a".toList).1.refun.filterMap (fun k =>
        if ruleMatches (processRecord (midFileRun e9 "a".toList).1 []).1
            (Record.make { (midFileRun e9 "a".toList).1 with
              FNR := (midFileRun e9 "a".toList).1.FNR + 1,
              NR := (midFileRun e9 "a".toList).1.NR + 1 } []).1 [] k
        then some (Event.ruleEv k ((midFileRun e9 "a".toList).1.NR + 1)
                    ((midFileRun e9 "a".toList).1.FNR + 1) [])
        else none) :=
  C9_trailing_empty_record e9 '\n' "a".toList rfl rfl
